import Mathlib

set_option maxHeartbeats 1000000

/-!
Shallow embedding of the token-activity normalization core of
`aptos-indexer-processors`
(`src/rust/processor/src/models/token_models/token_activities.rs`).

The snapshot contains only `token_activities.rs`; its collaborators
(`token_utils.rs`, `utils/util.rs`, and the protobuf transaction types) are
modelled from the specification, each such definition carrying a
`Modelled from the spec:` doc comment.  Abrupt process termination in the
source (an `unwrap` on `None`/`Err`) is modelled as a propagated
`Except.error`, following the spec's error-handling design which requires the
fatal condition to propagate to the caller.
-/

/-- Modelled from the spec: helper of the address canonicalizer — removes a
leading `0x` marker from the character list of a raw address. -/
def strip0x (l : List Char) : List Char :=
  match l with
  | '0' :: 'x' :: rest => rest
  | other => other

/-- Modelled from the spec: helper of the address canonicalizer — left-pads a
bare address with the character `0` up to 64 characters (shorter inputs are
padded, longer inputs are left unchanged). -/
def padAddr (l : List Char) : List Char :=
  List.replicate (64 - l.length) '0' ++ l

/-- Modelled from the spec: `standardize_address` (the AddressCanonicalizer;
`utils/util.rs` is not in this snapshot).  Normalizes an account-address
string into one fixed textual representation: strip the `0x` marker, left-pad
the remainder with zeros to 64 characters, and re-attach the `0x` marker. -/
def standardize_address (s : String) : String :=
  ⟨'0' :: 'x' :: padAddr (strip0x s.data)⟩

/-- Modelled from the spec: fixed maximum-length truncation policy protecting
storage column width (stable: same input, same output). -/
def truncate_str (s : String) (n : Nat) : String :=
  ⟨s.data.take n⟩

/-- Modelled from the spec: bound used by the name-truncation policy. -/
def MAX_NAME_LENGTH : Nat := 128

/-- Modelled from the spec: the composite token identifier carried by token
events — creator address, collection name, token name (`token_utils.rs` is not
in this snapshot). -/
structure TokenDataIdType where
  creator : String
  collection : String
  name : String
  deriving Repr, DecidableEq

/-- Modelled from the spec: deterministic content-addressed token identifier
hash, a pure function of the canonicalized creator address, the collection
name and the token name; the digest is modelled as the canonical serialization
itself (determinism is all the claims use). -/
def TokenDataIdType.to_hash (t : TokenDataIdType) : String :=
  standardize_address t.creator ++ "::" ++ t.collection ++ "::" ++ t.name

/-- Modelled from the spec: deterministic collection identifier hash, a pure
function of the canonicalized creator address and the collection name only. -/
def TokenDataIdType.get_collection_data_id_hash (t : TokenDataIdType) : String :=
  standardize_address t.creator ++ "::" ++ t.collection

/-- Modelled from the spec: the canonicalized creator address. -/
def TokenDataIdType.get_creator_address (t : TokenDataIdType) : String :=
  standardize_address t.creator

/-- Modelled from the spec: the collection name under the truncation policy. -/
def TokenDataIdType.get_collection_trunc (t : TokenDataIdType) : String :=
  truncate_str t.collection MAX_NAME_LENGTH

/-- Modelled from the spec: the token name under the truncation policy. -/
def TokenDataIdType.get_name_trunc (t : TokenDataIdType) : String :=
  truncate_str t.name MAX_NAME_LENGTH

/-- Modelled from the spec: a token identifier together with its property
version (the `id` / `token_id` / `new_id` fields of the event payloads).
Property versions and amounts are arbitrary-precision non-negative decimals
in the source (`BigDecimal`), modelled as `Nat`. -/
structure TokenIdType where
  token_data_id : TokenDataIdType
  property_version : Nat
  deriving Repr, DecidableEq

/-- Modelled from the spec: payload of a mint event — a token data id and an
amount. -/
structure MintTokenEventData where
  id : TokenDataIdType
  amount : Nat
  deriving Repr, DecidableEq

/-- Modelled from the spec: payload of a burn event. -/
structure BurnTokenEventData where
  id : TokenIdType
  amount : Nat
  deriving Repr, DecidableEq

/-- Modelled from the spec: payload of a property-map mutation event. -/
structure MutateTokenPropertyMapEventData where
  old_id : TokenIdType
  new_id : TokenIdType
  deriving Repr, DecidableEq

/-- Modelled from the spec: payload of a withdraw event. -/
structure WithdrawTokenEventData where
  id : TokenIdType
  amount : Nat
  deriving Repr, DecidableEq

/-- Modelled from the spec: payload of a deposit event. -/
structure DepositTokenEventData where
  id : TokenIdType
  amount : Nat
  deriving Repr, DecidableEq

/-- Modelled from the spec: payload of a token offer event, carrying the
declared recipient. -/
structure OfferTokenEventData where
  to_address : String
  token_id : TokenIdType
  amount : Nat
  deriving Repr, DecidableEq

/-- Modelled from the spec: payload of an offer-cancellation event. -/
structure CancelTokenOfferEventData where
  to_address : String
  token_id : TokenIdType
  amount : Nat
  deriving Repr, DecidableEq

/-- Modelled from the spec: payload of a claim event. -/
structure ClaimTokenEventData where
  to_address : String
  token_id : TokenIdType
  amount : Nat
  deriving Repr, DecidableEq

/-- Modelled from the spec: the declared recipient of an offer, canonicalized
(addresses are canonicalized wherever they cross into the canonical record). -/
def OfferTokenEventData.get_to_address (d : OfferTokenEventData) : String :=
  standardize_address d.to_address

/-- Modelled from the spec: the declared recipient of a cancelled offer,
canonicalized. -/
def CancelTokenOfferEventData.get_to_address (d : CancelTokenOfferEventData) : String :=
  standardize_address d.to_address

/-- Modelled from the spec: the declared recipient of a claim, canonicalized. -/
def ClaimTokenEventData.get_to_address (d : ClaimTokenEventData) : String :=
  standardize_address d.to_address

/-- Modelled from the spec: the closed set of decoded token-event variants
(`TokenEvent` of `token_utils.rs`, not in this snapshot). -/
inductive TokenEvent where
  | MintTokenEvent (d : MintTokenEventData)
  | BurnTokenEvent (d : BurnTokenEventData)
  | MutateTokenPropertyMapEvent (d : MutateTokenPropertyMapEventData)
  | WithdrawTokenEvent (d : WithdrawTokenEventData)
  | DepositTokenEvent (d : DepositTokenEventData)
  | OfferTokenEvent (d : OfferTokenEventData)
  | CancelTokenOfferEvent (d : CancelTokenOfferEventData)
  | ClaimTokenEvent (d : ClaimTokenEventData)
  deriving Repr, DecidableEq

/-- Modelled from the spec: an event's opaque string-encoded structured
payload, represented by the structured value it encodes — one of the eight
known shapes, or something else entirely. -/
inductive EventPayload where
  | mint (d : MintTokenEventData)
  | burn (d : BurnTokenEventData)
  | mutateMap (d : MutateTokenPropertyMapEventData)
  | withdraw (d : WithdrawTokenEventData)
  | deposit (d : DepositTokenEventData)
  | offer (d : OfferTokenEventData)
  | cancelOffer (d : CancelTokenOfferEventData)
  | claim (d : ClaimTokenEventData)
  | other (raw : String)
  deriving Repr, DecidableEq

/-- The static, exhaustive table of recognized token-event type tags. -/
def isTokenEventTag (s : String) : Bool :=
  s == "0x3::token::MintTokenEvent" ||
  s == "0x3::token::BurnTokenEvent" ||
  s == "0x3::token::MutateTokenPropertyMapEvent" ||
  s == "0x3::token::WithdrawEvent" ||
  s == "0x3::token::DepositEvent" ||
  s == "0x3::token_transfers::TokenOfferEvent" ||
  s == "0x3::token_transfers::TokenCancelOfferEvent" ||
  s == "0x3::token_transfers::TokenClaimEvent"

/-- Modelled from the spec: `TokenEvent::from_event`, the EventDecoder
(`token_utils.rs` is not in this snapshot).  A recognized type tag whose
payload does not have that variant's expected shape is a fatal decoding
error; an unrecognized tag decodes to `none` (skipped, not an error). -/
def TokenEvent.from_event (data_type : String) (data : EventPayload)
    (_txn_version : Int) : Except String (Option TokenEvent) :=
  if data_type = "0x3::token::MintTokenEvent" then
    match data with
    | EventPayload.mint d => Except.ok (some (TokenEvent.MintTokenEvent d))
    | _ => Except.error "malformed mint event payload"
  else if data_type = "0x3::token::BurnTokenEvent" then
    match data with
    | EventPayload.burn d => Except.ok (some (TokenEvent.BurnTokenEvent d))
    | _ => Except.error "malformed burn event payload"
  else if data_type = "0x3::token::MutateTokenPropertyMapEvent" then
    match data with
    | EventPayload.mutateMap d => Except.ok (some (TokenEvent.MutateTokenPropertyMapEvent d))
    | _ => Except.error "malformed mutate event payload"
  else if data_type = "0x3::token::WithdrawEvent" then
    match data with
    | EventPayload.withdraw d => Except.ok (some (TokenEvent.WithdrawTokenEvent d))
    | _ => Except.error "malformed withdraw event payload"
  else if data_type = "0x3::token::DepositEvent" then
    match data with
    | EventPayload.deposit d => Except.ok (some (TokenEvent.DepositTokenEvent d))
    | _ => Except.error "malformed deposit event payload"
  else if data_type = "0x3::token_transfers::TokenOfferEvent" then
    match data with
    | EventPayload.offer d => Except.ok (some (TokenEvent.OfferTokenEvent d))
    | _ => Except.error "malformed offer event payload"
  else if data_type = "0x3::token_transfers::TokenCancelOfferEvent" then
    match data with
    | EventPayload.cancelOffer d => Except.ok (some (TokenEvent.CancelTokenOfferEvent d))
    | _ => Except.error "malformed cancel offer event payload"
  else if data_type = "0x3::token_transfers::TokenClaimEvent" then
    match data with
    | EventPayload.claim d => Except.ok (some (TokenEvent.ClaimTokenEvent d))
    | _ => Except.error "malformed claim event payload"
  else
    Except.ok none

/-- Modelled from the spec: the key of a protobuf event — account address and
creation number (`aptos_protos`, external). -/
structure EventKey where
  creation_number : Nat
  account_address : String
  deriving Repr, DecidableEq

/-- Modelled from the spec: a protobuf transaction event — type tag, payload,
key, sequence number (`aptos_protos`, external).  The key is optional in the
protobuf encoding. -/
structure Event where
  key : Option EventKey
  sequence_number : Nat
  type_str : String
  data : EventPayload
  deriving Repr, DecidableEq

/-- Modelled from the spec: the transaction-kind payload of a protobuf
transaction; only the user kind carries an event list (`aptos_protos`,
external; variants other than `User` stand for genesis, block-metadata and
checkpoint transactions). -/
inductive TxnData where
  | User (events : List Event)
  | Genesis
  | BlockMetadata
  | StateCheckpoint
  deriving Repr, DecidableEq

/-- Modelled from the spec: a protobuf transaction — version, optional
timestamp (modelled as `Nat`), optional transaction-kind payload
(`aptos_protos`, external). -/
structure Transaction where
  version : Nat
  timestamp : Option Nat
  txn_data : Option TxnData
  deriving Repr, DecidableEq

/-- Modelled from the spec: `parse_timestamp` (`utils/util.rs` is not in this
snapshot) — converts the protobuf timestamp into the stored timestamp form;
deterministic pass-through in this model. -/
def parse_timestamp (ts : Nat) (_txn_version : Int) : Nat :=
  ts

/-- The canonical activity record (`TokenActivity` of `token_activities.rs`).
`i64` fields are modelled as `Int`, `BigDecimal` amounts and property versions
as `Nat`, `chrono::NaiveDateTime` as `Nat`. -/
structure TokenActivity where
  transaction_version : Int
  event_account_address : String
  event_creation_number : Int
  event_sequence_number : Int
  token_data_id_hash : String
  property_version : Nat
  creator_address : String
  collection_name : String
  name : String
  transfer_type : String
  from_address : Option String
  to_address : Option String
  token_amount : Nat
  coin_type : Option String
  coin_amount : Option Nat
  collection_data_id_hash : String
  transaction_timestamp : Nat
  event_index : Option Int
  deriving Repr, DecidableEq

/-- A simplified TokenActivity (excluded common fields) to reduce code
duplication (`TokenActivityHelper` of `token_activities.rs`; held by value
rather than by reference). -/
structure TokenActivityHelper where
  token_data_id : TokenDataIdType
  property_version : Nat
  from_address : Option String
  to_address : Option String
  token_amount : Nat
  coin_type : Option String
  coin_amount : Option Nat
  deriving Repr, DecidableEq

/-- `TokenActivity::from_parsed_event` of `token_activities.rs`.  The source
reads `event.key` via `unwrap` (twice); the missing-key panic is modelled by
returning `none`. -/
def TokenActivity.from_parsed_event (event_type : String) (event : Event)
    (token_event : TokenEvent) (txn_version : Int) (txn_timestamp : Nat)
    (event_index : Int) : Option TokenActivity :=
  match event.key with
  | none => none
  | some key =>
    let event_account_address := standardize_address key.account_address
    let event_creation_number : Int := Int.ofNat key.creation_number
    let event_sequence_number : Int := Int.ofNat event.sequence_number
    let token_activity_helper : TokenActivityHelper :=
      match token_event with
      | TokenEvent.MintTokenEvent inner =>
        { token_data_id := inner.id
          property_version := 0
          from_address := some event_account_address
          to_address := none
          token_amount := inner.amount
          coin_type := none
          coin_amount := none }
      | TokenEvent.BurnTokenEvent inner =>
        { token_data_id := inner.id.token_data_id
          property_version := inner.id.property_version
          from_address := some event_account_address
          to_address := none
          token_amount := inner.amount
          coin_type := none
          coin_amount := none }
      | TokenEvent.MutateTokenPropertyMapEvent inner =>
        { token_data_id := inner.new_id.token_data_id
          property_version := inner.new_id.property_version
          from_address := some event_account_address
          to_address := none
          token_amount := 0
          coin_type := none
          coin_amount := none }
      | TokenEvent.WithdrawTokenEvent inner =>
        { token_data_id := inner.id.token_data_id
          property_version := inner.id.property_version
          from_address := some event_account_address
          to_address := none
          token_amount := inner.amount
          coin_type := none
          coin_amount := none }
      | TokenEvent.DepositTokenEvent inner =>
        { token_data_id := inner.id.token_data_id
          property_version := inner.id.property_version
          from_address := none
          to_address := some (standardize_address event_account_address)
          token_amount := inner.amount
          coin_type := none
          coin_amount := none }
      | TokenEvent.OfferTokenEvent inner =>
        { token_data_id := inner.token_id.token_data_id
          property_version := inner.token_id.property_version
          from_address := some event_account_address
          to_address := some inner.get_to_address
          token_amount := inner.amount
          coin_type := none
          coin_amount := none }
      | TokenEvent.CancelTokenOfferEvent inner =>
        { token_data_id := inner.token_id.token_data_id
          property_version := inner.token_id.property_version
          from_address := some event_account_address
          to_address := some inner.get_to_address
          token_amount := inner.amount
          coin_type := none
          coin_amount := none }
      | TokenEvent.ClaimTokenEvent inner =>
        { token_data_id := inner.token_id.token_data_id
          property_version := inner.token_id.property_version
          from_address := some event_account_address
          to_address := some inner.get_to_address
          token_amount := inner.amount
          coin_type := none
          coin_amount := none }
    let token_data_id := token_activity_helper.token_data_id
    some
      { event_account_address := event_account_address
        event_creation_number := event_creation_number
        event_sequence_number := event_sequence_number
        token_data_id_hash := token_data_id.to_hash
        property_version := token_activity_helper.property_version
        collection_data_id_hash := token_data_id.get_collection_data_id_hash
        creator_address := token_data_id.get_creator_address
        collection_name := token_data_id.get_collection_trunc
        name := token_data_id.get_name_trunc
        transaction_version := txn_version
        transfer_type := event_type
        from_address := token_activity_helper.from_address
        to_address := token_activity_helper.to_address
        token_amount := token_activity_helper.token_amount
        coin_type := token_activity_helper.coin_type
        coin_amount := token_activity_helper.coin_amount
        transaction_timestamp := txn_timestamp
        event_index := some event_index }

/-- The event loop of `TokenActivity::from_transaction`, with the loop index
made explicit.  Each `unwrap` panic of the source (a decode error, a missing
timestamp, a missing event key) is modelled as a propagated `Except.error`. -/
def TokenActivity.process_events (txn_version : Int) (timestamp : Option Nat) :
    List Event → Nat → Except String (List TokenActivity)
  | [], _ => Except.ok []
  | event :: rest, index =>
    match TokenEvent.from_event event.type_str event.data txn_version with
    | Except.error msg => Except.error msg
    | Except.ok none =>
      TokenActivity.process_events txn_version timestamp rest (index + 1)
    | Except.ok (some token_event) =>
      match timestamp with
      | none => Except.error "transaction timestamp missing"
      | some ts =>
        match TokenActivity.from_parsed_event event.type_str event token_event
            txn_version (parse_timestamp ts txn_version) (Int.ofNat index) with
        | none => Except.error "event key missing"
        | some activity =>
          match TokenActivity.process_events txn_version timestamp rest (index + 1) with
          | Except.error msg => Except.error msg
          | Except.ok rest_activities => Except.ok (activity :: rest_activities)

/-- `TokenActivity::from_transaction` of `token_activities.rs`.  A missing
`txn_data` panics in the source (modelled as `Except.error`); a present but
non-user `txn_data` falls through the `if let` and yields the empty list. -/
def TokenActivity.from_transaction (transaction : Transaction) :
    Except String (List TokenActivity) :=
  match transaction.txn_data with
  | none => Except.error "Txn Data does not exist"
  | some (TxnData.User user_events) =>
    TokenActivity.process_events (Int.ofNat transaction.version)
      transaction.timestamp user_events 0
  | some _ => Except.ok []

/-- An event is emitted when the decoder recognizes it: `from_event` returns
`ok (some _)` on its tag and payload. -/
def isEmitted (txn_version : Int) (e : Event) : Bool :=
  match TokenEvent.from_event e.type_str e.data txn_version with
  | Except.ok (some _) => true
  | _ => false

/-- An event whose decoding does not raise the fatal malformed-payload
error. -/
def decodesCleanly (txn_version : Int) (e : Event) : Prop :=
  ∃ r, TokenEvent.from_event e.type_str e.data txn_version = Except.ok r

/-- The activity's identifier-derived fields all come from the given token
data id (used to state the per-variant mapping table). -/
def activityUsesId (act : TokenActivity) (id : TokenDataIdType) : Prop :=
  act.token_data_id_hash = id.to_hash ∧
  act.collection_data_id_hash = id.get_collection_data_id_hash ∧
  act.creator_address = id.get_creator_address ∧
  act.collection_name = id.get_collection_trunc ∧
  act.name = id.get_name_trunc

/-! ### Helper lemmas -/

theorem padAddr_length (l : List Char) : 64 ≤ (padAddr l).length := by
  simp only [padAddr, List.length_append, List.length_replicate]
  omega

theorem padAddr_stable (l : List Char) (h : 64 ≤ l.length) : padAddr l = l := by
  simp [padAddr, Nat.sub_eq_zero_of_le h]

theorem standardize_address_idem (s : String) :
    standardize_address (standardize_address s) = standardize_address s := by
  unfold standardize_address
  rw [show (String.mk ('0' :: 'x' :: padAddr (strip0x s.data))).data
      = '0' :: 'x' :: padAddr (strip0x s.data) from rfl]
  rw [show strip0x ('0' :: 'x' :: padAddr (strip0x s.data))
      = padAddr (strip0x s.data) from rfl]
  rw [padAddr_stable _ (padAddr_length _)]

theorem from_event_of_not_tag (s : String) (d : EventPayload) (v : Int)
    (h : isTokenEventTag s = false) :
    TokenEvent.from_event s d v = Except.ok none := by
  have h1 : ¬(s = "0x3::token::MintTokenEvent") := fun hs => by
    simp [isTokenEventTag, hs] at h
  have h2 : ¬(s = "0x3::token::BurnTokenEvent") := fun hs => by
    simp [isTokenEventTag, hs] at h
  have h3 : ¬(s = "0x3::token::MutateTokenPropertyMapEvent") := fun hs => by
    simp [isTokenEventTag, hs] at h
  have h4 : ¬(s = "0x3::token::WithdrawEvent") := fun hs => by
    simp [isTokenEventTag, hs] at h
  have h5 : ¬(s = "0x3::token::DepositEvent") := fun hs => by
    simp [isTokenEventTag, hs] at h
  have h6 : ¬(s = "0x3::token_transfers::TokenOfferEvent") := fun hs => by
    simp [isTokenEventTag, hs] at h
  have h7 : ¬(s = "0x3::token_transfers::TokenCancelOfferEvent") := fun hs => by
    simp [isTokenEventTag, hs] at h
  have h8 : ¬(s = "0x3::token_transfers::TokenClaimEvent") := fun hs => by
    simp [isTokenEventTag, hs] at h
  simp [TokenEvent.from_event, h1, h2, h3, h4, h5, h6, h7, h8]

theorem from_parsed_event_key_none (event_type : String) (event : Event)
    (te : TokenEvent) (v : Int) (ts : Nat) (idx : Int) (hk : event.key = none) :
    TokenActivity.from_parsed_event event_type event te v ts idx = none := by
  unfold TokenActivity.from_parsed_event
  rw [hk]

theorem from_parsed_event_key_some (event_type : String) (event : Event)
    (te : TokenEvent) (v : Int) (ts : Nat) (idx : Int) (key : EventKey)
    (hk : event.key = some key) :
    ∃ act, TokenActivity.from_parsed_event event_type event te v ts idx = some act ∧
      act.transfer_type = event_type ∧ act.event_index = some idx ∧
      act.event_account_address = standardize_address key.account_address := by
  unfold TokenActivity.from_parsed_event
  rw [hk]
  cases te <;> exact ⟨_, rfl, rfl, rfl, rfl⟩

theorem from_parsed_event_some_inv (event_type : String) (event : Event)
    (te : TokenEvent) (v : Int) (ts : Nat) (idx : Int) (act : TokenActivity)
    (h : TokenActivity.from_parsed_event event_type event te v ts idx = some act) :
    act.transfer_type = event_type ∧ act.event_index = some idx ∧
    (act.from_address ≠ none ∨ act.to_address ≠ none) := by
  cases hk : event.key with
  | none => rw [from_parsed_event_key_none event_type event te v ts idx hk] at h; cases h
  | some key =>
    unfold TokenActivity.from_parsed_event at h
    rw [hk] at h
    cases te <;>
      (injection h with h; subst h;
        first
          | exact ⟨rfl, rfl, Or.inl (Option.some_ne_none _)⟩
          | exact ⟨rfl, rfl, Or.inr (Option.some_ne_none _)⟩)

theorem process_events_ok_inv (v : Int) (ts : Option Nat) (events : List Event) :
    ∀ (n : Nat) (acts : List TokenActivity),
      TokenActivity.process_events v ts events n = Except.ok acts →
      ∀ e ∈ events,
        (∃ r, TokenEvent.from_event e.type_str e.data v = Except.ok r) ∧
        (isEmitted v e = true → ts ≠ none ∧ e.key ≠ none) := by
  induction events with
  | nil => intro n acts _ e he; exact absurd he (List.not_mem_nil e)
  | cons head rest ih =>
    intro n acts h e he
    simp only [TokenActivity.process_events] at h
    cases hfe : TokenEvent.from_event head.type_str head.data v with
    | error m => rw [hfe] at h; dsimp only at h; cases h
    | ok r =>
      rw [hfe] at h
      cases r with
      | none =>
        dsimp only at h
        rcases List.mem_cons.mp he with rfl | hmem
        · refine ⟨⟨none, hfe⟩, fun him => ?_⟩
          rw [isEmitted, hfe] at him
          cases him
        · exact ih (n + 1) acts h e hmem
      | some te =>
        dsimp only at h
        cases hts : ts with
        | none => rw [hts] at h; dsimp only at h; cases h
        | some τ =>
          subst hts
          dsimp only at h
          cases hfp : TokenActivity.from_parsed_event head.type_str head te v
              (parse_timestamp τ v) (Int.ofNat n) with
          | none => rw [hfp] at h; dsimp only at h; cases h
          | some act =>
            rw [hfp] at h
            dsimp only at h
            cases hrec : TokenActivity.process_events v (some τ) rest (n + 1) with
            | error m => rw [hrec] at h; dsimp only at h; cases h
            | ok as =>
              rcases List.mem_cons.mp he with rfl | hmem
              · refine ⟨⟨some te, hfe⟩, fun _ => ⟨by simp, ?_⟩⟩
                intro hkn
                rw [from_parsed_event_key_none _ _ _ _ _ _ hkn] at hfp
                cases hfp
              · exact ih (n + 1) as hrec e hmem

theorem process_events_transfer_list (v : Int) (ts : Option Nat)
    (events : List Event) :
    ∀ (n : Nat) (acts : List TokenActivity),
      TokenActivity.process_events v ts events n = Except.ok acts →
      acts.map TokenActivity.transfer_type =
        (events.filter (fun e => isEmitted v e)).map Event.type_str := by
  induction events with
  | nil =>
    intro n acts h
    cases h
    rfl
  | cons head rest ih =>
    intro n acts h
    simp only [TokenActivity.process_events] at h
    cases hfe : TokenEvent.from_event head.type_str head.data v with
    | error m => rw [hfe] at h; dsimp only at h; cases h
    | ok r =>
      rw [hfe] at h
      cases r with
      | none =>
        dsimp only at h
        have hem : isEmitted v head = false := by rw [isEmitted, hfe]
        have hft : (head :: rest).filter (fun e => isEmitted v e)
            = rest.filter (fun e => isEmitted v e) := by
          simp [List.filter_cons, hem]
        rw [hft]
        exact ih (n + 1) acts h
      | some te =>
        dsimp only at h
        cases hts : ts with
        | none => rw [hts] at h; dsimp only at h; cases h
        | some τ =>
          subst hts
          dsimp only at h
          cases hfp : TokenActivity.from_parsed_event head.type_str head te v
              (parse_timestamp τ v) (Int.ofNat n) with
          | none => rw [hfp] at h; dsimp only at h; cases h
          | some act =>
            rw [hfp] at h
            dsimp only at h
            cases hrec : TokenActivity.process_events v (some τ) rest (n + 1) with
            | error m => rw [hrec] at h; dsimp only at h; cases h
            | ok as =>
              rw [hrec] at h
              dsimp only at h
              injection h with h
              subst h
              have hem : isEmitted v head = true := by rw [isEmitted, hfe]
              have hft : (head :: rest).filter (fun e => isEmitted v e)
                  = head :: rest.filter (fun e => isEmitted v e) := by
                simp [List.filter_cons, hem]
              rw [hft, List.map_cons, List.map_cons,
                (from_parsed_event_some_inv _ _ _ _ _ _ _ hfp).1,
                ih (n + 1) as hrec]

theorem process_events_no_token_tags (v : Int) (ts : Option Nat) (events : List Event) :
    ∀ n : Nat, (∀ e ∈ events, isTokenEventTag e.type_str = false) →
      TokenActivity.process_events v ts events n = Except.ok [] := by
  induction events with
  | nil => intro n _; rfl
  | cons head rest ih =>
    intro n h
    simp only [TokenActivity.process_events]
    rw [from_event_of_not_tag head.type_str head.data v
      (h head (List.mem_cons_self head rest))]
    dsimp only
    exact ih (n + 1) (fun e he => h e (List.mem_cons_of_mem head he))

theorem process_events_ok_of_clean (v : Int) (τ : Nat) (events : List Event) :
    ∀ n : Nat,
      (∀ e ∈ events,
        (∃ r, TokenEvent.from_event e.type_str e.data v = Except.ok r) ∧
        e.key.isSome = true) →
      ∃ acts, TokenActivity.process_events v (some τ) events n = Except.ok acts ∧
        acts.map TokenActivity.event_index =
          ((List.enumFrom n events).filter (fun p => isEmitted v p.2)).map
            (fun p => some (Int.ofNat p.1)) := by
  induction events with
  | nil => intro n _; exact ⟨[], rfl, by simp⟩
  | cons head rest ih =>
    intro n h
    obtain ⟨⟨r, hr⟩, hkey⟩ := h head (List.mem_cons_self head rest)
    obtain ⟨acts, hacts, hmap⟩ :=
      ih (n + 1) (fun e he => h e (List.mem_cons_of_mem head he))
    cases r with
    | none =>
      have hem : isEmitted v head = false := by rw [isEmitted, hr]
      refine ⟨acts, ?_, ?_⟩
      · simp only [TokenActivity.process_events]
        rw [hr]
        dsimp only
        exact hacts
      · rw [show List.enumFrom n (head :: rest)
            = (n, head) :: List.enumFrom (n + 1) rest from rfl]
        simpa [List.filter_cons, hem] using hmap
    | some te =>
      obtain ⟨key, hk⟩ := Option.isSome_iff_exists.mp hkey
      obtain ⟨act, hact, _, hai, _⟩ := from_parsed_event_key_some head.type_str head
        te v (parse_timestamp τ v) (Int.ofNat n) key hk
      have hem : isEmitted v head = true := by rw [isEmitted, hr]
      refine ⟨act :: acts, ?_, ?_⟩
      · simp only [TokenActivity.process_events]
        rw [hr]
        dsimp only
        rw [hact]
        dsimp only
        rw [hacts]
      · rw [show List.enumFrom n (head :: rest)
            = (n, head) :: List.enumFrom (n + 1) rest from rfl]
        simp [List.filter_cons, hem, hai, hmap]

/-! ### Claim theorems -/

/-- C1 (counterexample): a genesis transaction — `txn_data` present but not a
user payload — does NOT fail: `from_transaction` returns the empty activity
sequence, contradicting the claim that any transaction lacking a user
payload fails fatally. -/
theorem C1_counterexample :
    TokenActivity.from_transaction ⟨1, none, some TxnData.Genesis⟩
      = Except.ok [] := rfl

/-- C1 (amended): only a transaction whose `txn_data` field is absent fails
fatally; a transaction whose `txn_data` is present but is not a user
transaction (genesis, block-metadata, checkpoint) returns the empty activity
sequence without error. -/
theorem C1_txn_data_handling (t : Transaction) :
    (t.txn_data = none →
      TokenActivity.from_transaction t = Except.error "Txn Data does not exist") ∧
    (∀ d, t.txn_data = some d → (∀ evs, d ≠ TxnData.User evs) →
      TokenActivity.from_transaction t = Except.ok []) := by
  constructor
  · intro h
    unfold TokenActivity.from_transaction
    rw [h]
  · intro d hd hne
    unfold TokenActivity.from_transaction
    rw [hd]
    cases d with
    | User evs => exact absurd rfl (hne evs)
    | Genesis => rfl
    | BlockMetadata => rfl
    | StateCheckpoint => rfl

/-- C1 (witness): the amended claim evaluated at a transaction with absent
`txn_data` and at a block-metadata transaction. -/
theorem C1_txn_data_handling_witness :
    TokenActivity.from_transaction ⟨1, none, none⟩
      = Except.error "Txn Data does not exist" ∧
    TokenActivity.from_transaction ⟨1, none, some TxnData.BlockMetadata⟩
      = Except.ok [] :=
  ⟨(C1_txn_data_handling ⟨1, none, none⟩).1 rfl,
   (C1_txn_data_handling ⟨1, none, some TxnData.BlockMetadata⟩).2
     TxnData.BlockMetadata rfl (fun _ h => TxnData.noConfusion h)⟩

/-- C3: if any event of a user transaction has a recognized token-event tag
whose payload cannot be decoded into that variant's shape (the decoder
returns the fatal error), then processing of the whole transaction fails
with a propagated error — no partial activity list is returned. -/
theorem C3_malformed_payload_fatal (t : Transaction) (events : List Event)
    (ht : t.txn_data = some (TxnData.User events)) (e : Event) (he : e ∈ events)
    (msg0 : String)
    (herr : TokenEvent.from_event e.type_str e.data (Int.ofNat t.version)
      = Except.error msg0) :
    ∃ msg, TokenActivity.from_transaction t = Except.error msg := by
  cases hres : TokenActivity.from_transaction t with
  | error msg => exact ⟨msg, rfl⟩
  | ok acts =>
    exfalso
    unfold TokenActivity.from_transaction at hres
    rw [ht] at hres
    dsimp only at hres
    obtain ⟨r, hrr⟩ := (process_events_ok_inv (Int.ofNat t.version) t.timestamp
      events 0 acts hres e he).1
    rw [herr] at hrr
    cases hrr

/-- C3 (witness): a transaction with one event carrying the mint tag but a
burn-shaped payload fails. -/
theorem C3_malformed_payload_fatal_witness :
    ∃ msg, TokenActivity.from_transaction ⟨2, some 5, some (TxnData.User
      [⟨some ⟨1, "0xa"⟩, 0, "0x3::token::MintTokenEvent",
        EventPayload.burn ⟨⟨⟨"0xb", "C", "N"⟩, 0⟩, 1⟩⟩])⟩ = Except.error msg :=
  C3_malformed_payload_fatal _ _ rfl
    ⟨some ⟨1, "0xa"⟩, 0, "0x3::token::MintTokenEvent",
      EventPayload.burn ⟨⟨⟨"0xb", "C", "N"⟩, 0⟩, 1⟩⟩
    (List.mem_singleton.mpr rfl) "malformed mint event payload" rfl

/-- C5 (counterexample): a user transaction with an absent timestamp and no
events returns the empty sequence instead of failing — the timestamp is only
read when a recognized token event is reached, so the claim as stated is
false. -/
theorem C5_counterexample :
    TokenActivity.from_transaction ⟨0, none, some (TxnData.User [])⟩
      = Except.ok [] := rfl

/-- C5 (amended): a user transaction whose timestamp is absent fails fatally
as soon as it contains an event that decodes to a recognized token event;
without such an event the absent timestamp is never read. -/
theorem C5_timestamp_fatal_when_recognized (t : Transaction) (events : List Event)
    (ht : t.txn_data = some (TxnData.User events)) (hts : t.timestamp = none)
    (e : Event) (he : e ∈ events)
    (hrec : isEmitted (Int.ofNat t.version) e = true) :
    ∃ msg, TokenActivity.from_transaction t = Except.error msg := by
  cases hres : TokenActivity.from_transaction t with
  | error msg => exact ⟨msg, rfl⟩
  | ok acts =>
    exfalso
    unfold TokenActivity.from_transaction at hres
    rw [ht] at hres
    dsimp only at hres
    exact ((process_events_ok_inv (Int.ofNat t.version) t.timestamp events 0
      acts hres e he).2 hrec).1 hts

/-- C5 (witness): the amended claim at a timestamp-less transaction holding
one recognized mint event. -/
theorem C5_timestamp_fatal_when_recognized_witness :
    ∃ msg, TokenActivity.from_transaction ⟨7, none, some (TxnData.User
      [⟨some ⟨1, "0xa"⟩, 0, "0x3::token::MintTokenEvent",
        EventPayload.mint ⟨⟨"0xa", "Swords", "Excalibur"⟩, 5⟩⟩])⟩
      = Except.error msg :=
  C5_timestamp_fatal_when_recognized _ _ rfl rfl
    ⟨some ⟨1, "0xa"⟩, 0, "0x3::token::MintTokenEvent",
      EventPayload.mint ⟨⟨"0xa", "Swords", "Excalibur"⟩, 5⟩⟩
    (List.mem_singleton.mpr rfl) rfl

/-- C6: a user transaction none of whose events carries a recognized
token-event tag (in particular one with zero events) normalizes to the empty
sequence and never raises an error. -/
theorem C6_no_recognized_events_ok (t : Transaction) (events : List Event)
    (ht : t.txn_data = some (TxnData.User events))
    (h : ∀ e ∈ events, isTokenEventTag e.type_str = false) :
    TokenActivity.from_transaction t = Except.ok [] := by
  unfold TokenActivity.from_transaction
  rw [ht]
  dsimp only
  exact process_events_no_token_tags (Int.ofNat t.version) t.timestamp events 0 h

/-- C6 (witness): a user transaction with a single unrecognized coin event
normalizes to the empty sequence. -/
theorem C6_no_recognized_events_ok_witness :
    TokenActivity.from_transaction ⟨3, some 9, some (TxnData.User
      [⟨some ⟨0, "0xb"⟩, 0, "0x1::coin::DepositEvent", EventPayload.other "x"⟩])⟩
      = Except.ok [] :=
  C6_no_recognized_events_ok _ _ rfl (fun e he => by
    rw [List.mem_singleton.mp he]
    rfl)

/-- C4: for a user transaction whose events all decode without a fatal error
and all carry keys, normalization succeeds and the emitted activities carry
`event_index = some i` exactly for the positions `i` of the recognized
events, in increasing positional order (the enumeration of the event list
filtered to the recognized events); in particular `event_index` is populated
in every emitted activity, and a skipped event consumes its index without
shifting later indices. -/
theorem C4_event_index_enumeration (t : Transaction) (events : List Event)
    (τ : Nat) (ht : t.txn_data = some (TxnData.User events))
    (hts : t.timestamp = some τ)
    (h : ∀ e ∈ events,
      (∃ r, TokenEvent.from_event e.type_str e.data (Int.ofNat t.version)
        = Except.ok r) ∧ e.key.isSome = true) :
    ∃ acts, TokenActivity.from_transaction t = Except.ok acts ∧
      acts.map TokenActivity.event_index =
        ((events.enum.filter (fun p => isEmitted (Int.ofNat t.version) p.2)).map
          (fun p => some (Int.ofNat p.1))) ∧
      ∀ a ∈ acts, (TokenActivity.event_index a).isSome = true := by
  obtain ⟨acts, hacts, hmap⟩ :=
    process_events_ok_of_clean (Int.ofNat t.version) τ events 0 h
  refine ⟨acts, ?_, hmap, ?_⟩
  · unfold TokenActivity.from_transaction
    rw [ht]
    dsimp only
    rw [hts]
    exact hacts
  · intro a ha
    have hmem : TokenActivity.event_index a ∈ acts.map TokenActivity.event_index :=
      List.mem_map_of_mem _ ha
    rw [hmap] at hmem
    obtain ⟨p, _, hpe⟩ := List.mem_map.mp hmem
    rw [← hpe]
    rfl

/-- C4 (witness): a transaction with an unrecognized event at index 0 and a
mint event at index 1. -/
theorem C4_event_index_enumeration_witness :
    ∃ acts, TokenActivity.from_transaction ⟨7, some 3, some (TxnData.User
        [⟨some ⟨0, "0xc"⟩, 0, "0x1::coin::WithdrawEvent", EventPayload.other "y"⟩,
         ⟨some ⟨1, "0xa"⟩, 2, "0x3::token::MintTokenEvent",
           EventPayload.mint ⟨⟨"0xa", "S", "E"⟩, 5⟩⟩])⟩ = Except.ok acts ∧
      acts.map TokenActivity.event_index =
        (([⟨some ⟨0, "0xc"⟩, 0, "0x1::coin::WithdrawEvent", EventPayload.other "y"⟩,
           ⟨some ⟨1, "0xa"⟩, 2, "0x3::token::MintTokenEvent",
             EventPayload.mint ⟨⟨"0xa", "S", "E"⟩, 5⟩⟩] :
          List Event).enum.filter (fun p => isEmitted (Int.ofNat 7) p.2)).map
          (fun p => some (Int.ofNat p.1)) ∧
      ∀ a ∈ acts, (TokenActivity.event_index a).isSome = true :=
  C4_event_index_enumeration _ _ 3 rfl rfl (by
    intro e he
    rcases List.mem_cons.mp he with rfl | he2
    · exact ⟨⟨none, rfl⟩, rfl⟩
    · rw [List.mem_singleton] at he2
      subst he2
      exact ⟨⟨some (TokenEvent.MintTokenEvent ⟨⟨"0xa", "S", "E"⟩, 5⟩), rfl⟩, rfl⟩)

/-- C7: the emitted activities carry, in order, exactly the raw `type_str`
strings of the transaction's recognized events, verbatim — each activity's
`transfer_type` is the tag of its own originating event (`from_parsed_event`
stores the tag string it was handed, and `from_transaction` hands it the
originating event's raw tag), with no canonicalization or other
modification. -/
theorem C7_transfer_type_verbatim (t : Transaction) (events : List Event)
    (ht : t.txn_data = some (TxnData.User events)) (acts : List TokenActivity)
    (hok : TokenActivity.from_transaction t = Except.ok acts) :
    acts.map TokenActivity.transfer_type =
      (events.filter (fun e => isEmitted (Int.ofNat t.version) e)).map
        Event.type_str := by
  unfold TokenActivity.from_transaction at hok
  rw [ht] at hok
  dsimp only at hok
  exact process_events_transfer_list (Int.ofNat t.version) t.timestamp events 0
    acts hok

/-- C7 (witness): for a transaction with an unrecognized event followed by a
mint event, the emitted transfer_type list is the type_str list of the
recognized events. -/
theorem C7_transfer_type_verbatim_witness :
    ((TokenActivity.from_transaction ⟨7, some 3, some (TxnData.User
        [⟨some ⟨0, "0xc"⟩, 0, "0x1::coin::WithdrawEvent", EventPayload.other "y"⟩,
         ⟨some ⟨1, "0xa"⟩, 2, "0x3::token::MintTokenEvent",
           EventPayload.mint ⟨⟨"0xa", "S", "E"⟩, 5⟩⟩])⟩).toOption.getD []).map
      TokenActivity.transfer_type =
    (([⟨some ⟨0, "0xc"⟩, 0, "0x1::coin::WithdrawEvent", EventPayload.other "y"⟩,
       ⟨some ⟨1, "0xa"⟩, 2, "0x3::token::MintTokenEvent",
         EventPayload.mint ⟨⟨"0xa", "S", "E"⟩, 5⟩⟩] : List Event).filter
      (fun e => isEmitted (Int.ofNat 7) e)).map Event.type_str :=
  C7_transfer_type_verbatim
    ⟨7, some 3, some (TxnData.User
      [⟨some ⟨0, "0xc"⟩, 0, "0x1::coin::WithdrawEvent", EventPayload.other "y"⟩,
       ⟨some ⟨1, "0xa"⟩, 2, "0x3::token::MintTokenEvent",
         EventPayload.mint ⟨⟨"0xa", "S", "E"⟩, 5⟩⟩])⟩
    [⟨some ⟨0, "0xc"⟩, 0, "0x1::coin::WithdrawEvent", EventPayload.other "y"⟩,
     ⟨some ⟨1, "0xa"⟩, 2, "0x3::token::MintTokenEvent",
       EventPayload.mint ⟨⟨"0xa", "S", "E"⟩, 5⟩⟩]
    rfl
    ((TokenActivity.from_transaction ⟨7, some 3, some (TxnData.User
      [⟨some ⟨0, "0xc"⟩, 0, "0x1::coin::WithdrawEvent", EventPayload.other "y"⟩,
       ⟨some ⟨1, "0xa"⟩, 2, "0x3::token::MintTokenEvent",
         EventPayload.mint ⟨⟨"0xa", "S", "E"⟩, 5⟩⟩])⟩).toOption.getD [])
    (by rfl)

/-- C2: the per-variant field table of `from_parsed_event` — for each decoded
token event, the emitted activity derives its identifier fields from the
variant's declared id (`id`, `new_id` or `token_id`), its property version,
from-address, to-address and amount as the table prescribes, and
`coin_type`/`coin_amount` are absent for all eight variants. -/
theorem C2_variant_field_table (event_type : String) (event : Event)
    (te : TokenEvent) (v : Int) (ts : Nat) (idx : Int) (key : EventKey)
    (hk : event.key = some key) :
    ∃ act, TokenActivity.from_parsed_event event_type event te v ts idx
        = some act ∧
      act.coin_type = none ∧ act.coin_amount = none ∧
      (match te with
       | TokenEvent.MintTokenEvent d =>
         activityUsesId act d.id ∧ act.property_version = 0 ∧
         act.from_address = some (standardize_address key.account_address) ∧
         act.to_address = none ∧ act.token_amount = d.amount
       | TokenEvent.BurnTokenEvent d =>
         activityUsesId act d.id.token_data_id ∧
         act.property_version = d.id.property_version ∧
         act.from_address = some (standardize_address key.account_address) ∧
         act.to_address = none ∧ act.token_amount = d.amount
       | TokenEvent.MutateTokenPropertyMapEvent d =>
         activityUsesId act d.new_id.token_data_id ∧
         act.property_version = d.new_id.property_version ∧
         act.from_address = some (standardize_address key.account_address) ∧
         act.to_address = none ∧ act.token_amount = 0
       | TokenEvent.WithdrawTokenEvent d =>
         activityUsesId act d.id.token_data_id ∧
         act.property_version = d.id.property_version ∧
         act.from_address = some (standardize_address key.account_address) ∧
         act.to_address = none ∧ act.token_amount = d.amount
       | TokenEvent.DepositTokenEvent d =>
         activityUsesId act d.id.token_data_id ∧
         act.property_version = d.id.property_version ∧
         act.from_address = none ∧
         act.to_address = some (standardize_address key.account_address) ∧
         act.token_amount = d.amount
       | TokenEvent.OfferTokenEvent d =>
         activityUsesId act d.token_id.token_data_id ∧
         act.property_version = d.token_id.property_version ∧
         act.from_address = some (standardize_address key.account_address) ∧
         act.to_address = some d.get_to_address ∧ act.token_amount = d.amount
       | TokenEvent.CancelTokenOfferEvent d =>
         activityUsesId act d.token_id.token_data_id ∧
         act.property_version = d.token_id.property_version ∧
         act.from_address = some (standardize_address key.account_address) ∧
         act.to_address = some d.get_to_address ∧ act.token_amount = d.amount
       | TokenEvent.ClaimTokenEvent d =>
         activityUsesId act d.token_id.token_data_id ∧
         act.property_version = d.token_id.property_version ∧
         act.from_address = some (standardize_address key.account_address) ∧
         act.to_address = some d.get_to_address ∧ act.token_amount = d.amount) := by
  unfold TokenActivity.from_parsed_event
  rw [hk]
  cases te with
  | MintTokenEvent d =>
    exact ⟨_, rfl, rfl, rfl, ⟨rfl, rfl, rfl, rfl, rfl⟩, rfl, rfl, rfl, rfl⟩
  | BurnTokenEvent d =>
    exact ⟨_, rfl, rfl, rfl, ⟨rfl, rfl, rfl, rfl, rfl⟩, rfl, rfl, rfl, rfl⟩
  | MutateTokenPropertyMapEvent d =>
    exact ⟨_, rfl, rfl, rfl, ⟨rfl, rfl, rfl, rfl, rfl⟩, rfl, rfl, rfl, rfl⟩
  | WithdrawTokenEvent d =>
    exact ⟨_, rfl, rfl, rfl, ⟨rfl, rfl, rfl, rfl, rfl⟩, rfl, rfl, rfl, rfl⟩
  | DepositTokenEvent d =>
    exact ⟨_, rfl, rfl, rfl, ⟨rfl, rfl, rfl, rfl, rfl⟩, rfl, rfl,
      congrArg some (standardize_address_idem key.account_address), rfl⟩
  | OfferTokenEvent d =>
    exact ⟨_, rfl, rfl, rfl, ⟨rfl, rfl, rfl, rfl, rfl⟩, rfl, rfl, rfl, rfl⟩
  | CancelTokenOfferEvent d =>
    exact ⟨_, rfl, rfl, rfl, ⟨rfl, rfl, rfl, rfl, rfl⟩, rfl, rfl, rfl, rfl⟩
  | ClaimTokenEvent d =>
    exact ⟨_, rfl, rfl, rfl, ⟨rfl, rfl, rfl, rfl, rfl⟩, rfl, rfl, rfl, rfl⟩

/-- C2 (witness): the table evaluated on a concrete mint event. -/
theorem C2_variant_field_table_witness :
    ∃ act, TokenActivity.from_parsed_event "0x3::token::MintTokenEvent"
        ⟨some ⟨5, "0xa"⟩, 0, "0x3::token::MintTokenEvent",
          EventPayload.mint ⟨⟨"0xa", "Swords", "Excalibur"⟩, 5⟩⟩
        (TokenEvent.MintTokenEvent ⟨⟨"0xa", "Swords", "Excalibur"⟩, 5⟩) 7 3 0
        = some act ∧
      act.coin_type = none ∧ act.coin_amount = none ∧
      (activityUsesId act ⟨"0xa", "Swords", "Excalibur"⟩ ∧
       act.property_version = 0 ∧
       act.from_address = some (standardize_address "0xa") ∧
       act.to_address = none ∧ act.token_amount = 5) :=
  C2_variant_field_table "0x3::token::MintTokenEvent"
    ⟨some ⟨5, "0xa"⟩, 0, "0x3::token::MintTokenEvent",
      EventPayload.mint ⟨⟨"0xa", "Swords", "Excalibur"⟩, 5⟩⟩
    (TokenEvent.MintTokenEvent ⟨⟨"0xa", "Swords", "Excalibur"⟩, 5⟩) 7 3 0
    ⟨5, "0xa"⟩ rfl

/-- C8: address canonicalization is idempotent, and consequently the
to-address a deposit activity stores (the source canonicalizes the already
canonicalized event account address) equals the singly-canonicalized event
account address — the very value the other variants store as from-address. -/
theorem C8_canonicalize_idempotent :
    (∀ x : String,
      standardize_address (standardize_address x) = standardize_address x) ∧
    ∀ (event_type : String) (event : Event) (d : DepositTokenEventData)
      (v : Int) (ts : Nat) (idx : Int) (key : EventKey),
      event.key = some key →
      ∃ act, TokenActivity.from_parsed_event event_type event
          (TokenEvent.DepositTokenEvent d) v ts idx = some act ∧
        act.to_address = some (standardize_address key.account_address) := by
  refine ⟨standardize_address_idem, ?_⟩
  intro event_type event d v ts idx key hk
  unfold TokenActivity.from_parsed_event
  rw [hk]
  exact ⟨_, rfl, congrArg some (standardize_address_idem key.account_address)⟩

/-- C8 (witness): idempotence at a concrete address, and the deposit
to-address at a concrete deposit event. -/
theorem C8_canonicalize_idempotent_witness :
    standardize_address (standardize_address "0xabc") = standardize_address "0xabc" ∧
    ∃ act, TokenActivity.from_parsed_event "0x3::token::DepositEvent"
        ⟨some ⟨1, "0xdef"⟩, 2, "0x3::token::DepositEvent",
          EventPayload.deposit ⟨⟨⟨"0xb", "C", "N"⟩, 0⟩, 4⟩⟩
        (TokenEvent.DepositTokenEvent ⟨⟨⟨"0xb", "C", "N"⟩, 0⟩, 4⟩) 7 3 0
        = some act ∧
      act.to_address = some (standardize_address "0xdef") :=
  ⟨C8_canonicalize_idempotent.1 "0xabc",
   C8_canonicalize_idempotent.2 "0x3::token::DepositEvent"
     ⟨some ⟨1, "0xdef"⟩, 2, "0x3::token::DepositEvent",
       EventPayload.deposit ⟨⟨⟨"0xb", "C", "N"⟩, 0⟩, 4⟩⟩
     ⟨⟨⟨"0xb", "C", "N"⟩, 0⟩, 4⟩ 7 3 0 ⟨1, "0xdef"⟩ rfl⟩

/-- C9: every activity produced by `from_parsed_event` has at least one of
`from_address` and `to_address` populated — they are never both `none`. -/
theorem C9_counterparty_populated (event_type : String) (event : Event)
    (te : TokenEvent) (v : Int) (ts : Nat) (idx : Int) (act : TokenActivity)
    (h : TokenActivity.from_parsed_event event_type event te v ts idx
      = some act) :
    ¬(act.from_address = none ∧ act.to_address = none) := by
  rcases (from_parsed_event_some_inv _ _ _ _ _ _ _ h).2.2 with hf | ht'
  · exact fun hc => hf hc.1
  · exact fun hc => ht' hc.2

/-- C9 (witness): the activity emitted for a concrete mint event has a
populated counterparty side. -/
theorem C9_counterparty_populated_witness :
    ¬(((TokenActivity.from_parsed_event "0x3::token::MintTokenEvent"
        ⟨some ⟨5, "0xa"⟩, 0, "0x3::token::MintTokenEvent",
          EventPayload.mint ⟨⟨"0xa", "S", "E"⟩, 5⟩⟩
        (TokenEvent.MintTokenEvent ⟨⟨"0xa", "S", "E"⟩, 5⟩) 7 3 0).getD
        ⟨0, "", 0, 0, "", 0, "", "", "", "", none, none, 0, none, none, "", 0,
          none⟩).from_address = none ∧
      ((TokenActivity.from_parsed_event "0x3::token::MintTokenEvent"
        ⟨some ⟨5, "0xa"⟩, 0, "0x3::token::MintTokenEvent",
          EventPayload.mint ⟨⟨"0xa", "S", "E"⟩, 5⟩⟩
        (TokenEvent.MintTokenEvent ⟨⟨"0xa", "S", "E"⟩, 5⟩) 7 3 0).getD
        ⟨0, "", 0, 0, "", 0, "", "", "", "", none, none, 0, none, none, "", 0,
          none⟩).to_address = none) :=
  C9_counterparty_populated "0x3::token::MintTokenEvent"
    ⟨some ⟨5, "0xa"⟩, 0, "0x3::token::MintTokenEvent",
      EventPayload.mint ⟨⟨"0xa", "S", "E"⟩, 5⟩⟩
    (TokenEvent.MintTokenEvent ⟨⟨"0xa", "S", "E"⟩, 5⟩) 7 3 0
    ((TokenActivity.from_parsed_event "0x3::token::MintTokenEvent"
      ⟨some ⟨5, "0xa"⟩, 0, "0x3::token::MintTokenEvent",
        EventPayload.mint ⟨⟨"0xa", "S", "E"⟩, 5⟩⟩
      (TokenEvent.MintTokenEvent ⟨⟨"0xa", "S", "E"⟩, 5⟩) 7 3 0).getD
      ⟨0, "", 0, 0, "", 0, "", "", "", "", none, none, 0, none, none, "", 0,
        none⟩)
    (by rfl)

/-- C10: `from_parsed_event` reads the event key via unwrap — with the key
present the call always produces an activity (the unwrap failure branch is
unreachable), and with the key absent the call panics (modelled as `none`). -/
theorem C10_key_unwrap_totality (event_type : String) (event : Event)
    (te : TokenEvent) (v : Int) (ts : Nat) (idx : Int) :
    (event.key = none →
      TokenActivity.from_parsed_event event_type event te v ts idx = none) ∧
    ∀ key, event.key = some key →
      (TokenActivity.from_parsed_event event_type event te v ts idx).isSome
        = true := by
  constructor
  · exact from_parsed_event_key_none event_type event te v ts idx
  · intro key hk
    obtain ⟨act, hact, _⟩ :=
      from_parsed_event_key_some event_type event te v ts idx key hk
    rw [hact]
    rfl

/-- C10 (witness): a keyless event yields no activity; a keyed event yields
one. -/
theorem C10_key_unwrap_totality_witness :
    TokenActivity.from_parsed_event "t" ⟨none, 0, "t", EventPayload.other "p"⟩
      (TokenEvent.MintTokenEvent ⟨⟨"0xa", "S", "E"⟩, 1⟩) 1 2 3 = none ∧
    (TokenActivity.from_parsed_event "t"
      ⟨some ⟨4, "0xa"⟩, 0, "t", EventPayload.other "p"⟩
      (TokenEvent.MintTokenEvent ⟨⟨"0xa", "S", "E"⟩, 1⟩) 1 2 3).isSome = true :=
  ⟨(C10_key_unwrap_totality "t" ⟨none, 0, "t", EventPayload.other "p"⟩
      (TokenEvent.MintTokenEvent ⟨⟨"0xa", "S", "E"⟩, 1⟩) 1 2 3).1 rfl,
   (C10_key_unwrap_totality "t" ⟨some ⟨4, "0xa"⟩, 0, "t", EventPayload.other "p"⟩
      (TokenEvent.MintTokenEvent ⟨⟨"0xa", "S", "E"⟩, 1⟩) 1 2 3).2 ⟨4, "0xa"⟩ rfl⟩
